import Mathlib

/-!
Verification development for the `vitwit/eliza` Cosmos plugin.

The TypeScript sources are shallowly embedded:

* `BigNumber` values (exact decimal arithmetic) become the `Dec` type,
  a pair `m / 10 ^ e` with integer mantissa;
* JavaScript values flowing out of the LLM extraction step become `JsVal`
  (undefined, null, string or number), with JS truthiness and string
  coercion modelled explicitly;
* runtime settings become a partial map `Settings`;
* network effects (RPC connection, balance query, gas simulation, price
  fetch, broadcast) become oracle inputs, so each function of the source
  is a pure function of its inputs and the oracle answers;
* the `NodeCache` instance becomes an association list of string keys.
-/

/-- `10 ^ e` as a natural number. -/
def pow10 (e : ℕ) : ℕ := 10 ^ e

/-- Exact decimal number `m / 10 ^ e`, the model of a `BigNumber` value
(and of the plain JS numbers the code feeds into `BigNumber`). -/
structure Dec where
  m : ℤ
  e : ℕ
deriving DecidableEq, Repr

namespace Dec

/-- The rational value of a decimal. -/
def val (d : Dec) : ℚ := (d.m : ℚ) / (10 : ℚ) ^ d.e

/-- Embed a natural number. -/
def ofNat (n : ℕ) : Dec := ⟨n, 0⟩

/-- The decimal zero. -/
def zero : Dec := ⟨0, 0⟩

/-- `BigNumber.multipliedBy`: exact product of two decimals. -/
def mul (a b : Dec) : Dec := ⟨a.m * b.m, a.e + b.e⟩

/-- `new BigNumber(n).shiftedBy(-k)` for a natural amount `n`:
the value `n / 10 ^ k`. -/
def shiftDown (n : ℕ) (k : ℕ) : Dec := ⟨n, k⟩

/-- Normalisation: strip factors of ten shared by mantissa and exponent,
mirroring the normalised internal representation of `BigNumber`. -/
def normAux : ℤ → ℕ → Dec
  | m, 0 => ⟨m, 0⟩
  | m, e + 1 => if (10 : ℤ) ∣ m then normAux (m / 10) e else ⟨m, e + 1⟩

/-- Normalised form of a decimal. -/
def norm (d : Dec) : Dec := normAux d.m d.e

/-- Left-pad the decimal digits of `x` with zeros to width `w`. -/
def padZeros (w : ℕ) (x : ℕ) : String :=
  let s := toString x
  String.mk (List.replicate (w - s.length) '0') ++ s

/-- `BigNumber#toString` / argument-free `toFixed`: render the exact
decimal value in normal notation without trailing fractional zeros. -/
def render (d : Dec) : String :=
  let n := d.norm
  let a := n.m.natAbs
  let s :=
    if n.e = 0 then toString a
    else toString (a / pow10 n.e) ++ "." ++ padZeros n.e (a % pow10 n.e)
  if n.m < 0 then "-" ++ s else s

/-- The number of cents after rounding to two decimal places half-up
(away from zero), as `BigNumber#toFixed(2)` does under the default
`ROUND_HALF_UP` mode. -/
def cents (d : Dec) : ℤ :=
  let p := pow10 d.e
  let q := 100 * d.m.natAbs
  let r : ℕ := (2 * q + p) / (2 * p)
  if d.m < 0 then -(r : ℤ) else (r : ℤ)

/-- `BigNumber#toFixed(2)`: render with exactly two decimal places,
rounding half away from zero. -/
def toFixed2 (d : Dec) : String :=
  let c := d.cents
  let a := c.natAbs
  (if c < 0 then "-" else "") ++ toString (a / 100) ++ "." ++ padZeros 2 (a % 100)

/-- `decimalPlaces(0, ROUND_UP)` of a decimal: round away from zero to an
integer. -/
def roundAwayToInt (d : Dec) : ℤ :=
  let p := pow10 d.e
  let r : ℕ := (d.m.natAbs + p - 1) / p
  if d.m < 0 then -(r : ℤ) else (r : ℤ)

end Dec

/-- Mathematical meaning of rounding a rational to cents, half away from
zero: the reference against which `Dec.cents` is checked. -/
def centsSpec (q : ℚ) : ℤ :=
  if 0 ≤ q then (⌊100 * q + 1 / 2⌋₊ : ℤ) else -(⌊100 * (-q) + 1 / 2⌋₊ : ℤ)

/-- Render an integer number of cents as a fixed two-decimal string. -/
def renderCents (n : ℤ) : String :=
  (if n < 0 then "-" else "") ++
    toString (n.natAbs / 100) ++ "." ++ Dec.padZeros 2 (n.natAbs % 100)

/-! ## JavaScript value model -/

/-- A JavaScript value as produced by the LLM JSON extraction:
`undefined`, `null`, a string, or a number. -/
inductive JsVal where
  | undef : JsVal
  | null : JsVal
  | str : String → JsVal
  | num : Dec → JsVal
deriving DecidableEq, Repr

namespace JsVal

/-- JS truthiness: `undefined`, `null`, the empty string and `0` are falsy. -/
def truthy : JsVal → Bool
  | .undef => false
  | .null => false
  | .str s => !(s == "")
  | .num d => !(d.m == 0)

/-- `typeof v === "string"`. -/
def isString : JsVal → Bool
  | .str _ => true
  | _ => false

/-- `typeof v === "number"`. -/
def isNumber : JsVal → Bool
  | .num _ => true
  | _ => false

/-- `String(v)`, and the coercion performed by `v + "suffix"`. -/
def toStr : JsVal → String
  | .undef => "undefined"
  | .null => "null"
  | .str s => s
  | .num d => d.render

end JsVal

/-- JS `a || b` on two possibly-absent strings (empty string is falsy). -/
def jsOrOpt (a b : Option String) : Option String :=
  match a with
  | some s => if s = "" then b else some s
  | none => b

/-- JS `a || dflt` for a possibly-absent string against a string default. -/
def jsOrStr (a : Option String) (dflt : String) : String :=
  match a with
  | some s => if s = "" then dflt else s
  | none => dflt

/-- JS `a || dflt` for a possibly-absent number (zero is falsy). -/
def jsOrDec (a : Option Dec) (dflt : Dec) : Dec :=
  match a with
  | some d => if d.m = 0 then dflt else d
  | none => dflt

/-- Truthiness of an optional string setting (`undefined`/`null`/`""` falsy). -/
def jsTruthyS (a : Option String) : Bool :=
  match a with
  | some s => !(s == "")
  | none => false

/-- Template-literal interpolation of a possibly-absent string. -/
def jsTemplate (a : Option String) : String := a.getD "undefined"

/-- Runtime settings: `runtime.getSetting`, `none` when unset. -/
def Settings : Type := String → Option String

theorem dec_val_zero_of_m_eq_zero (d : Dec) (h : d.m = 0) : d.val = 0 := by
  simp [Dec.val, h]

theorem dec_normAux_zero (e : ℕ) : Dec.normAux 0 e = ⟨0, 0⟩ := by
  induction e with
  | zero => rfl
  | succ e ih => simp [Dec.normAux, ih]

theorem dec_render_zero (d : Dec) (h : d.m = 0) : d.render = "0" := by
  simp [Dec.render, Dec.norm, h, dec_normAux_zero]
  rfl

theorem dec_mul_val (a b : Dec) : (a.mul b).val = a.val * b.val := by
  simp [Dec.mul, Dec.val, pow_add]
  ring

theorem jsOrStr_eq_getD (a : Option String) (dflt : String) (h : a ≠ some "") :
    jsOrStr a dflt = a.getD dflt := by
  cases a with
  | none => rfl
  | some s =>
    simp only [jsOrStr, Option.getD_some]
    have : s ≠ "" := by intro hs; exact h (by rw [hs])
    simp [this]

theorem nat_ceilDiv_eq (a b : ℕ) (hb : 0 < b) :
    (a + b - 1) / b = ⌈(a : ℚ) / (b : ℚ)⌉₊ := by
  rcases Nat.eq_zero_or_pos a with ha | ha
  · subst ha
    simp [Nat.div_eq_of_lt (by omega : b - 1 < b)]
  · obtain ⟨c, rfl⟩ : ∃ c, a = c + 1 := ⟨a - 1, by omega⟩
    have hx : c + 1 + b - 1 = c + b := by omega
    rw [hx]
    have hbq : (0 : ℚ) < (b : ℚ) := by exact_mod_cast hb
    rw [Nat.add_div_right _ hb]
    symm
    rw [Nat.ceil_eq_iff (Nat.succ_ne_zero _)]
    have hmul := Nat.div_add_mod c b
    have hmd := Nat.mod_lt c hb
    constructor
    · rw [lt_div_iff₀ hbq]
      have h1 : c / b * b ≤ c := Nat.div_mul_le_self c b
      have h3 : c / b * b < c + 1 := by omega
      exact_mod_cast h3
    · rw [div_le_iff₀ hbq]
      have h5 : (c / b + 1) * b = b * (c / b) + b := by ring
      have h4 : c + 1 ≤ (c / b + 1) * b := by omega
      exact_mod_cast h4

theorem pow10_cast_q (e : ℕ) : ((pow10 e : ℕ) : ℚ) = (10 : ℚ) ^ e := by
  simp [pow10]

theorem dec_cents_spec (d : Dec) : d.cents = centsSpec d.val := by
  have hp : 0 < pow10 d.e := Nat.pos_pow_of_pos _ (by norm_num)
  have h10 : (0 : ℚ) < (10 : ℚ) ^ d.e := by positivity
  rcases lt_or_le d.m 0 with hm | hm
  · have hval : d.val < 0 := by
      have hmq : (d.m : ℚ) < 0 := by exact_mod_cast hm
      exact div_neg_of_neg_of_pos hmq h10
    rw [Dec.cents, centsSpec, if_neg (not_le.mpr hval)]
    simp only [if_pos hm]
    congr 1
    have hrw : 100 * -d.val + 1 / 2 =
        ((2 * (100 * d.m.natAbs) + pow10 d.e : ℕ) : ℚ) / ((2 * pow10 d.e : ℕ) : ℚ) := by
      have habs' : ((d.m.natAbs : ℕ) : ℚ) = -(d.m : ℚ) := by
        rw [Int.cast_natAbs, abs_of_neg hm]
        push_cast
        ring
      push_cast
      rw [habs', pow10_cast_q]
      unfold Dec.val
      field_simp
      ring
    rw [hrw, ← Nat.floor_div_eq_div (α := ℚ)]
  · have hval : 0 ≤ d.val := by
      have hmq : (0 : ℚ) ≤ (d.m : ℚ) := by exact_mod_cast hm
      unfold Dec.val
      positivity
    rw [Dec.cents, centsSpec, if_pos hval]
    simp only [if_neg (not_lt.mpr hm)]
    congr 1
    have hrw : 100 * d.val + 1 / 2 =
        ((2 * (100 * d.m.natAbs) + pow10 d.e : ℕ) : ℚ) / ((2 * pow10 d.e : ℕ) : ℚ) := by
      have habs' : ((d.m.natAbs : ℕ) : ℚ) = (d.m : ℚ) := by
        rw [Int.cast_natAbs, abs_of_nonneg hm]
      push_cast
      rw [habs', pow10_cast_q]
      unfold Dec.val
      field_simp
      ring
    rw [hrw, ← Nat.floor_div_eq_div (α := ℚ)]

theorem dec_toFixed2_spec (d : Dec) : d.toFixed2 = renderCents (centsSpec d.val) := by
  rw [Dec.toFixed2, renderCents, ← dec_cents_spec]

/-! ## Chain info and configuration (`providers/wallet.ts`) -/

/-- One entry of `fees.fee_tokens`. -/
structure FeeToken where
  denom : Option String
  average_gas_price : Option Dec
deriving DecidableEq, Repr

/-- The `CosmosChainInfo` shape used by the wallet provider: every field the
embedded functions touch, each optional field an `Option`.  `apis` is the
flattened list of RPC addresses (`apis.rpc[i].address`), empty when absent. -/
structure CosmosChainInfo where
  chain_name : Option String
  pretty_name : Option String
  bech32Pfx : Option String
  coingecko_id : Option String
  denom : Option String
  decimals : Option ℕ
  apis : List String
  fees : Option (List FeeToken)
deriving DecidableEq, Repr

/-- `Number(getSetting("COSMOS_CHAIN_DECIMALS") || 6)`: an unset or empty
setting yields 6; a decimal numeral parses; anything else is NaN, folded
to `none`. -/
def customDecimalsOf (o : Option String) : Option ℕ :=
  match o with
  | none => some 6
  | some s => if s = "" then some 6 else s.toNat?

/-- The first fee token of a chain, if any (`fees?.fee_tokens?.[0]`). -/
def feeHead (ci : CosmosChainInfo) : Option FeeToken :=
  ci.fees.bind List.head?

/-- The chain-registry patch performed by the registry branch of
`buildChainInfo`: fill in `coingecko_id` when falsy, and set `denom` and
`decimals` from the first fee token with the usual fallbacks. -/
def registryPatch (cd : CosmosChainInfo) (coingeckoID : Option String) :
    CosmosChainInfo :=
  { cd with
    coingecko_id := if jsTruthyS cd.coingecko_id then cd.coingecko_id else coingeckoID
    denom := some (jsOrStr ((feeHead cd).bind FeeToken.denom) "uosmo")
    decimals := some (cd.decimals.getD 6) }

/-- `buildChainInfo` (second wallet implementation): throws when the
mnemonic is falsy, builds the chain info from settings when a custom RPC is
configured, and otherwise patches the chain-registry entry named by
`COSMOS_CHAIN_NAME`, throwing when none matches. -/
def buildChainInfo (settings : Settings) (registry : List CosmosChainInfo) :
    Except String CosmosChainInfo :=
  if !jsTruthyS (settings "COSMOS_MNEMONIC") then
    .error "COSMOS_MNEMONIC not configured"
  else
    let chainName := settings "COSMOS_CHAIN_NAME"
    let coingeckoID := settings "COSMOS_COINGECKO_ID"
    let customDenom := settings "COSMOS_CHAIN_DENOM"
    match settings "COSMOS_RPC_URL" with
    | some rpc =>
      if rpc = "" then
        match registry.find? (fun c => c.chain_name == chainName) with
        | none => .error ("Chain \u0027" ++ jsTemplate chainName ++ "\u0027 not found in chain-registry")
        | some cd => .ok (registryPatch cd coingeckoID)
      else
        .ok
          { chain_name := chainName
            pretty_name := none
            bech32Pfx := settings "COSMOS_BECH32_PREFIX"
            coingecko_id := coingeckoID
            denom := customDenom
            decimals := customDecimalsOf (settings "COSMOS_CHAIN_DECIMALS")
            apis := [rpc]
            fees := some [⟨customDenom, some ⟨25, 3⟩⟩] }
    | none =>
      match registry.find? (fun c => c.chain_name == chainName) with
      | none => .error ("Chain \u0027" ++ jsTemplate chainName ++ "\u0027 not found in chain-registry")
      | some cd => .ok (registryPatch cd coingeckoID)

/-- Oracle answer of `SigningStargateClient.connectWithSigner` followed by
`signer.getAccounts()`: either a rejection or the first account address. -/
def NetAnswer : Type := Except String String

/-- `connectWallet` (module level, second wallet implementation): checks
the mnemonic, builds the chain info, requires an RPC endpoint, then yields
the signer address together with the chain info. -/
def connectWalletM (settings : Settings) (registry : List CosmosChainInfo)
    (net : NetAnswer) : Except String (String × CosmosChainInfo) :=
  if !jsTruthyS (settings "COSMOS_MNEMONIC") then
    .error "COSMOS_MNEMONIC not set in environment"
  else
    match buildChainInfo settings registry with
    | .error e => .error e
    | .ok ci =>
      match ci.apis.head? with
      | none => .error "No RPC endpoint specified in chainInfo"
      | some rpc =>
        if rpc = "" then .error "No RPC endpoint specified in chainInfo"
        else
          match net with
          | .error e => .error e
          | .ok addr => .ok (addr, ci)

/-! ## Gas estimation (`estimateGas`) -/

/-- One `Coin` of a fee amount; the denom is optional because the code can
produce `{ denom: undefined, amount: ... }`. -/
structure FeeCoin where
  denom : Option String
  amount : String
deriving DecidableEq, Repr

/-- A `StdFee`; the failure path of `estimateGas` returns the empty object
`{}`, with neither field present. -/
structure StdFee where
  amount : Option (List FeeCoin)
  gas : Option String
deriving DecidableEq, Repr

/-- The empty `StdFee` object `{}`. -/
def emptyFee : StdFee := ⟨none, none⟩

/-- `Math.ceil(gasEstimated * 1.3)` for a natural gas estimate. -/
def gasWithBufferOf (g : ℕ) : ℕ := (13 * g + 9) / 10

/-- The fee denom chosen by `estimateGas`:
`chainInfo.fees?.fee_tokens?.[0]?.denom || chainInfo.denom`. -/
def feeDenomOf (ci : CosmosChainInfo) : Option String :=
  jsOrOpt ((feeHead ci).bind FeeToken.denom) ci.denom

/-- The average gas price chosen by `estimateGas`:
`chainInfo.fees?.fee_tokens?.[0]?.average_gas_price || 0.01`. -/
def avgGasPriceOf (ci : CosmosChainInfo) : Dec :=
  jsOrDec ((feeHead ci).bind FeeToken.average_gas_price) ⟨1, 2⟩

/-- `estimateGas`: on a successful simulation, 1.3 times the simulated gas
rounded up, with a single fee coin of that gas times the average gas price
rounded up to an integer; on any error, the empty fee object. -/
def estimateGas (sim : Except String ℕ) (ci : CosmosChainInfo) : StdFee :=
  match sim with
  | .error _ => emptyFee
  | .ok g =>
    let gasWithBuffer := gasWithBufferOf g
    let feeAmount :=
      Dec.roundAwayToInt (Dec.mul (Dec.ofNat gasWithBuffer) (avgGasPriceOf ci))
    { amount := some [⟨feeDenomOf ci, toString feeAmount⟩]
      gas := some (toString gasWithBuffer) }

/-! ## Wallet provider state: cache, balances, price oracle -/

/-- A balance entry returned by `getAllBalances`. -/
structure Coin where
  denom : String
  amount : ℕ
deriving DecidableEq, Repr

/-- A token of the portfolio.  Numeric fields are kept as exact decimals;
the rendered strings of the source are recovered with `Dec.render` /
`Dec.toFixed2`. -/
structure CosmosToken where
  name : Option String
  symbol : String
  decimals : ℕ
  balance : ℕ
  uiAmount : Dec
  priceUsd : Dec
  valueUsd : Dec
deriving DecidableEq, Repr

/-- The wallet portfolio: total USD value plus the token list. -/
structure WalletPortfolio where
  totalUsd : Dec
  tokens : List CosmosToken
deriving DecidableEq, Repr

/-- A value stored in the `NodeCache`: a number (price keys) or a
portfolio (portfolio keys). -/
inductive CacheVal where
  | num : Dec → CacheVal
  | portfolio : WalletPortfolio → CacheVal
deriving DecidableEq, Repr

/-- The `NodeCache` contents: most recent insertion first. -/
def Cache : Type := List (String × CacheVal)

/-- `cache.get(key)`. -/
def cacheGet (c : Cache) (k : String) : Option CacheVal :=
  (c.find? (fun p => p.1 == k)).map Prod.snd

/-- `cache.set(key, v)`. -/
def cacheSet (c : Cache) (k : String) (v : CacheVal) : Cache := (k, v) :: c

/-- The answer of the Coingecko price fetch: a thrown network error, a
non-ok HTTP response, or a parsed body whose relevant `usd` field may be
missing. -/
inductive PriceResp where
  | fetchError : PriceResp
  | respNotOk : PriceResp
  | okv : Option Dec → PriceResp
deriving DecidableEq, Repr

/-- Mutable state of a `WalletProvider` instance: its cache and, once
connected, the signer address (standing in for the stargate client too,
which the code sets together with it). -/
structure WState where
  cache : Cache
  signer : Option String

/-- A fresh instance: empty 5-minute-TTL cache, not connected. -/
def initWState : WState := ⟨[], none⟩

/-- Per-call oracle answers: connection, balance query and price fetch. -/
structure CallEnv where
  net : NetAnswer
  balances : Except String (List Coin)
  priceResp : PriceResp

/-- `String.prototype.toUpperCase` / `String.toUpper`, as a structural
map over the character list. -/
def jsToUpperCase (s : String) : String := String.mk (s.data.map Char.toUpper)

/-- `fetchTokenPrice` of the second `WalletProvider` implementation: the
HTTP fetch runs only when the cache already holds a truthy price for the
coingecko id; otherwise the function returns 0 immediately. -/
def fetchTokenPrice (cgID : String) (resp : PriceResp) (cache : Cache) :
    Dec × Cache :=
  let cachedPrice : Option Dec :=
    match cacheGet cache ("price-" ++ cgID) with
    | some (.num d) => some d
    | _ => none
  match cachedPrice with
  | none => (Dec.zero, cache)
  | some d =>
    if d.m = 0 then (Dec.zero, cache)
    else
      match resp with
      | .fetchError => (Dec.zero, cache)
      | .respNotOk => (Dec.zero, cache)
      | .okv usd =>
        let price := usd.getD Dec.zero
        (price, cacheSet cache ("price-" ++ cgID) (.num price))

/-- `fetchPortfolioValue` of the second `WalletProvider` implementation.
Returns the portfolio, the updated instance state, and whether the chain
was actually queried (false on a cache hit).  Errors model exceptions
thrown before any state mutation other than a successful connect. -/
def fetchPortfolioValue (ci : CosmosChainInfo) (settings : Settings)
    (registry : List CosmosChainInfo) (st : WState) (env : CallEnv) :
    Except String (WalletPortfolio × WState × Bool) :=
  let cacheKey := "portfolio-" ++ jsTemplate ci.chain_name
  match cacheGet st.cache cacheKey with
  | some (.portfolio p) => .ok (p, st, false)
  | _ =>
    let conn : Except String (String × WState) :=
      match st.signer with
      | some a => .ok (a, st)
      | none =>
        match connectWalletM settings registry env.net with
        | .error e => .error e
        | .ok (addr, _) => .ok (addr, { st with signer := some addr })
    match conn with
    | .error e => .error e
    | .ok (_, st') =>
      let denom := ci.denom.getD "uosmo"
      let decimals := ci.decimals.getD 6
      match env.balances with
      | .error e => .error e
      | .ok balances =>
        let baseTokenBalance := balances.find? (fun b => b.denom == denom)
        let rawBalance := (baseTokenBalance.map Coin.amount).getD 0
        let cgID := jsOrStr ci.coingecko_id "osmosis"
        let pr := fetchTokenPrice cgID env.priceResp st'.cache
        let tokenPriceUsd := pr.1
        let convertedBalance := Dec.shiftDown rawBalance decimals
        let valueUsd := Dec.mul convertedBalance tokenPriceUsd
        let portfolio : WalletPortfolio :=
          { totalUsd := valueUsd
            tokens := [{ name := ci.chain_name
                         symbol := jsToUpperCase denom
                         decimals := decimals
                         balance := rawBalance
                         uiAmount := convertedBalance
                         priceUsd := tokenPriceUsd
                         valueUsd := valueUsd }] }
        let cache'' := cacheSet pr.2 cacheKey (.portfolio portfolio)
        .ok (portfolio, { st' with cache := cache'' }, true)

/-- `formatPortfolio` of the second implementation: chain header, optional
account address, the total and per-token USD values via `toFixed(2)`, and
the market-price lines. -/
def formatPortfolio (signerAddress : Option String) (ci : CosmosChainInfo)
    (portfolio : WalletPortfolio) : String :=
  let header := "Chain: " ++ jsTemplate ci.chain_name ++ "\n"
  let addrPart :=
    match signerAddress with
    | some a => "Account Address: " ++ a ++ "\n\n"
    | none => ""
  let totalPart :=
    "Total Value: $" ++ portfolio.totalUsd.toFixed2 ++ "\n\nToken Balances:\n"
  let tokenLines := String.join (portfolio.tokens.map (fun t =>
    jsTemplate t.name ++ " (" ++ t.symbol ++ "): " ++ t.uiAmount.render ++
      " ($" ++ t.valueUsd.toFixed2 ++ ")\n"))
  let priceLines := String.join (portfolio.tokens.map (fun t =>
    t.symbol ++ ": $" ++ t.priceUsd.toFixed2 ++ "\n"))
  header ++ addrPart ++ totalPart ++ tokenLines ++ "\nMarket Prices:\n" ++ priceLines

/-- `getFormattedPortfolio` of the second implementation: format the
fetched portfolio, or the fallback message when anything throws. -/
def getFormattedPortfolio (ci : CosmosChainInfo) (settings : Settings)
    (registry : List CosmosChainInfo) (st : WState) (env : CallEnv) :
    String × WState :=
  match fetchPortfolioValue ci settings registry st env with
  | .ok (p, st', _) => (formatPortfolio st'.signer ci p, st')
  | .error _ => ("Unable to fetch wallet information. Please try again later.", st)

/-! ## First (duplicate) wallet provider implementation -/

/-- `fetchTokenPrice` of the first `WalletProvider` implementation: on a
cache miss it performs the Coingecko fetch (hardcoded `osmosis` id),
caching and returning the price, and returns 0 on any fetch failure. -/
def fetchTokenPriceV1 (chainName : Option String) (resp : PriceResp)
    (cache : Cache) : Dec × Cache :=
  let key := "price-" ++ jsTemplate chainName
  let cachedPrice : Option Dec :=
    match cacheGet cache key with
    | some (.num d) => some d
    | _ => none
  match cachedPrice with
  | some d =>
    if d.m = 0 then
      match resp with
      | .fetchError => (Dec.zero, cache)
      | .respNotOk => (Dec.zero, cache)
      | .okv usd =>
        let price := usd.getD Dec.zero
        (price, cacheSet cache key (.num price))
    else (d, cache)
  | none =>
    match resp with
    | .fetchError => (Dec.zero, cache)
    | .respNotOk => (Dec.zero, cache)
    | .okv usd =>
      let price := usd.getD Dec.zero
      (price, cacheSet cache key (.num price))

/-- `connect` of the first implementation: reuse the client if present,
require the mnemonic and the first RPC endpoint of the instance chain
info, then obtain the signer address. -/
def connectV1 (mnemonic : String) (ci : CosmosChainInfo) (st : WState)
    (net : NetAnswer) : Except String (String × WState) :=
  match st.signer with
  | some a => .ok (a, st)
  | none =>
    if mnemonic = "" then .error "Cosmos wallet mnemonic not provided"
    else
      match ci.apis.head? with
      | none => .error "No RPC endpoint found in chainInfo.apis.rpc"
      | some rpc =>
        if rpc = "" then .error "No RPC endpoint found in chainInfo.apis.rpc"
        else
          match net with
          | .error e => .error e
          | .ok addr => .ok (addr, { st with signer := some addr })

/-- `fetchPortfolioValue` of the first `WalletProvider` implementation:
same caching shape, but the token price is actually fetched, the token
name falls back to `"Osmosis"` and the symbol is the literal `"OSMO"`. -/
def fetchPortfolioValueV1 (mnemonic : String) (ci : CosmosChainInfo)
    (st : WState) (env : CallEnv) :
    Except String (WalletPortfolio × WState × Bool) :=
  let cacheKey := "portfolio-" ++ jsTemplate ci.chain_name
  match cacheGet st.cache cacheKey with
  | some (.portfolio p) => .ok (p, st, false)
  | _ =>
    match connectV1 mnemonic ci st env.net with
    | .error e => .error e
    | .ok (_, st') =>
      let baseDenom := jsOrStr ci.denom "uosmo"
      let decimals := ci.decimals.getD 6
      match env.balances with
      | .error e => .error e
      | .ok balances =>
        let baseTokenBalance := balances.find? (fun b => b.denom == baseDenom)
        let rawBalance := (baseTokenBalance.map Coin.amount).getD 0
        let pr := fetchTokenPriceV1 ci.chain_name env.priceResp st'.cache
        let tokenPriceUsd := pr.1
        let convertedBalance := Dec.shiftDown rawBalance decimals
        let valueUsd := Dec.mul convertedBalance tokenPriceUsd
        let portfolio : WalletPortfolio :=
          { totalUsd := valueUsd
            tokens := [{ name := some (jsOrStr ci.pretty_name "Osmosis")
                         symbol := "OSMO"
                         decimals := decimals
                         balance := rawBalance
                         uiAmount := convertedBalance
                         priceUsd := tokenPriceUsd
                         valueUsd := valueUsd }] }
        let cache'' := cacheSet pr.2 cacheKey (.portfolio portfolio)
        .ok (portfolio, { st' with cache := cache'' }, true)

/-! ## Transfer action (`actions/transfer.ts`) -/

/-- The object extracted by the LLM for a transfer: each field is an
arbitrary JS value, since the JSON is unvalidated until the type guard. -/
structure TransferCosmosContent where
  tokenDenom : JsVal
  recipient : JsVal
  amount : JsVal
  memo : JsVal
deriving DecidableEq, Repr

/-- A JS runtime exception escaping the handler (the type guard calls
`.startsWith` on the recipient whenever it is truthy, which throws a
`TypeError` when the recipient is not a string). -/
inductive JsError where
  | typeError : JsError
deriving DecidableEq, Repr

/-- `String.prototype.startsWith`, as a structural recursion over the
character list. -/
def jsStartsWith (s pre : String) : Bool := pre.data.isPrefixOf s.data

/-- `isTransferCosmosContent`: type checks on `tokenDenom` and `amount`,
the bech32-looking check on a truthy recipient, and the memo type check.
Throws when a truthy non-string recipient reaches `.startsWith`. -/
def isTransferCosmosContent (content : TransferCosmosContent) :
    Except JsError Bool :=
  let validTypes :=
    content.tokenDenom.isString &&
      (content.amount.isString || content.amount.isNumber)
  if !validTypes then .ok false
  else
    let memoOk := !(content.memo.truthy && !content.memo.isString)
    if content.recipient.truthy then
      match content.recipient with
      | .str s =>
        if jsStartsWith s "cosmos1" || jsStartsWith s "osmo1" then .ok memoOk
        else .ok false
      | _ => .error .typeError
    else .ok memoOk

/-- The broadcast result of `sendTokens`. -/
structure SendResult where
  code : ℤ
  transactionHash : String
deriving DecidableEq, Repr

/-- Oracle answers for one run of the transfer handler. -/
structure HandlerEnv where
  settings : Settings
  registry : List CosmosChainInfo
  net : NetAnswer
  simulate : Except String ℕ
  send : Except String SendResult

/-- The arguments of the `sendTokens` call the handler performs. -/
structure SendCall where
  fromAddress : String
  toAddress : String
  denom : String
  amount : String
  fee : StdFee
  memo : String
deriving DecidableEq, Repr

/-- The observable outcome of one handler run: the returned boolean, the
texts passed to the callback, and the `sendTokens` call if one was made. -/
structure HandlerOut where
  result : Bool
  callbacks : List String
  sendCall : Option SendCall
deriving DecidableEq, Repr

/-- The memo suffix appended by the handler. -/
def memoSuffix : String := " - sent via Vitwit\u0027s Eliza Cosmos plugin"

/-- Prefix of the success callback text. -/
def successPre : String := "Transfer completed successfully! TxHash: "

/-- Prefix of the catch-all error callback text. -/
def errPre : String := "Error transferring tokens: "

/-- Callback text when the extracted content fails the type guard. -/
def invalidContentMsg : String :=
  "Not enough information to transfer tokens on Cosmos. Need \u0027tokenDenom\u0027, \u0027recipient\u0027, \u0027amount\u0027."

/-- Callback text when no truthy recipient was extracted. -/
def noRecipientMsg : String :=
  "No valid recipient for Cosmos transfer. Please provide an address."

/-- Callback text when no truthy amount was extracted. -/
def noAmountMsg : String :=
  "No valid amount for Cosmos transfer. Please provide a numeric value."

/-- The `COSMOS_SEND_TOKEN` handler, from the point where the LLM has
produced `content`: validation, the recipient and amount guards, then the
connect / estimate / broadcast sequence inside `try`, returning `true`
exactly on a code-0 broadcast. -/
def transferHandler (content : TransferCosmosContent) (env : HandlerEnv) :
    Except JsError HandlerOut :=
  match isTransferCosmosContent content with
  | .error e => .error e
  | .ok valid =>
    if !valid then .ok ⟨false, [invalidContentMsg], none⟩
    else if !content.recipient.truthy then .ok ⟨false, [noRecipientMsg], none⟩
    else if !content.amount.truthy then .ok ⟨false, [noAmountMsg], none⟩
    else
      let sendAmount := content.amount.toStr
      match connectWalletM env.settings env.registry env.net with
      | .error e => .ok ⟨false, [errPre ++ e], none⟩
      | .ok (signerAddress, chainInfo) =>
        let fee := estimateGas env.simulate chainInfo
        let newMemo := content.memo.toStr ++ memoSuffix
        let call : SendCall :=
          { fromAddress := signerAddress
            toAddress := content.recipient.toStr
            denom := content.tokenDenom.toStr
            amount := sendAmount
            fee := fee
            memo := newMemo }
        match env.send with
        | .error e => .ok ⟨false, [errPre ++ e], some call⟩
        | .ok r =>
          if r.code ≠ 0 then
            .ok ⟨false, [errPre ++ "Broadcast failed with code " ++ toString r.code],
                 some call⟩
          else
            .ok ⟨true, [successPre ++ r.transactionHash], some call⟩

/-! ## Address derivation (`keypairUtils.ts` and the TEE provider) -/

/-- A byte sequence, for public keys and hash outputs. -/
def ByteSeq : Type := List ℕ

/-- `generateCosmosAddress` from `keypairUtils.ts`: SHA-256 of the public
key, RIPEMD-160 of that, Bech32-encoded under the prefix.  The hash,
word-conversion and Bech32 primitives are library calls, passed here as
function parameters. -/
def generateCosmosAddress (sha256 ripemd160 : ByteSeq → ByteSeq)
    (toWords : ByteSeq → ByteSeq) (bech32Encode : String → ByteSeq → String)
    (publicKey : ByteSeq) (pre : String := "cosmos") : String :=
  bech32Encode pre (toWords (ripemd160 (sha256 publicKey)))

/-- Modelled from the spec: the library reference formula for a Cosmos
address — "the Bech32 encoding, under the chain prefix, of RIPEMD-160 of
SHA-256 of the public key". -/
def cosmosAddressReference (sha256 ripemd160 : ByteSeq → ByteSeq)
    (toWords : ByteSeq → ByteSeq) (bech32Encode : String → ByteSeq → String)
    (publicKey : ByteSeq) (pre : String) : String :=
  bech32Encode pre (toWords (ripemd160 (sha256 publicKey)))

/-- The address computation inside
`DeriveKeyProvider.deriveSecp256k1KeypairForCosmos`: compress the derived
public key, SHA-256, RIPEMD-160, Bech32 under the hardcoded `osmo`
prefix. -/
def deriveCosmosAddressTEE (compressPubkey : ByteSeq → ByteSeq)
    (sha256 ripemd160 : ByteSeq → ByteSeq) (toWords : ByteSeq → ByteSeq)
    (bech32Encode : String → ByteSeq → String)
    (publicKeyUncompressed : ByteSeq) : String :=
  bech32Encode "osmo" (toWords (ripemd160 (sha256 (compressPubkey publicKeyUncompressed))))

/-- Modelled from the spec: a fee produced by pure delegation of gas
estimation — the simulated gas passed through unchanged, with no locally
computed fee amount. -/
def delegatedFeeSpec (g : ℕ) : StdFee := ⟨none, some (toString g)⟩

/-! ## Operation sequences over one second-implementation instance -/

/-- One cache-touching operation on a `WalletProvider` instance of the
second implementation, with its oracle answers (`get` and
`getFormattedPortfolio` reduce to `fetchPortfolioValue`; the private
`fetchTokenPrice` is also reachable on its own from the portfolio path). -/
inductive WOp where
  | fetchPortfolio : Settings → List CosmosChainInfo → CallEnv → WOp
  | fetchPrice : String → PriceResp → WOp

/-- Apply one operation to the instance state (a thrown error leaves the
state unchanged, matching the source where every mutation happens after
the last fallible call). -/
def wStep (ci : CosmosChainInfo) (st : WState) : WOp → WState
  | .fetchPortfolio settings registry env =>
    match fetchPortfolioValue ci settings registry st env with
    | .ok (_, st', _) => st'
    | .error _ => st
  | .fetchPrice cgID resp =>
    { st with cache := (fetchTokenPrice cgID resp st.cache).2 }

/-- Run a sequence of operations from a state. -/
def wRun (ci : CosmosChainInfo) (st : WState) : List WOp → WState
  | [] => st
  | op :: ops => wRun ci (wStep ci st op) ops

/-- The invariant of claim C6: no `price-` key is ever present, and every
cached portfolio is zero-priced. -/
def PriceCacheInv (c : Cache) : Prop :=
  (∀ g : String, cacheGet c ("price-" ++ g) = none) ∧
    (∀ k p, cacheGet c k = some (.portfolio p) →
      p.totalUsd.m = 0 ∧ ∀ t ∈ p.tokens, t.priceUsd.m = 0 ∧ t.valueUsd.m = 0)

/-! ## Plugin registration (`index.ts`) -/

/-- An Eliza provider: its data-supplying `get` entry point. -/
structure ElizaProvider where
  get : Settings → List CosmosChainInfo → CallEnv → Option String

/-- The exported `walletProvider`: builds the chain info from settings,
instantiates the second `WalletProvider`, and returns the formatted
portfolio, or null when configuration or formatting setup throws. -/
def walletProviderGet (settings : Settings) (registry : List CosmosChainInfo)
    (env : CallEnv) : Option String :=
  if !jsTruthyS (settings "COSMOS_MNEMONIC") then none
  else
    match buildChainInfo settings registry with
    | .error _ => none
    | .ok ci =>
      some (getFormattedPortfolio ci settings registry initWState env).1

/-- The exported wallet provider value. -/
def walletProvider : ElizaProvider := ⟨walletProviderGet⟩

/-- An Eliza action: name, similes, description and handler. -/
structure ElizaAction where
  name : String
  similes : List String
  description : String
  handlerFn : TransferCosmosContent → HandlerEnv → Except JsError HandlerOut

/-- The default export of `actions/transfer.ts`. -/
def executeTransfer : ElizaAction :=
  { name := "COSMOS_SEND_TOKEN"
    similes := ["TRANSFER_TOKEN_ON_COSMOS", "TRANSFER_TOKENS_ON_COSMOS",
                "SEND_TOKENS_ON_COSMOS", "PAY_ON_COSMOS"]
    description := "Use this action if the user requests sending a token on Cosmos. Extracts token denom, recipient, and amount from the conversation, then executes."
    handlerFn := transferHandler }

/-- An Eliza plugin: the registered capabilities. -/
structure ElizaPlugin where
  name : String
  description : String
  providers : List ElizaProvider
  actions : List ElizaAction
  evaluators : List Unit

/-- The exported `cosmosPlugin` from `index.ts`. -/
def cosmosPlugin : ElizaPlugin :=
  { name := "COSMOS"
    description := "Cosmos (e.g. Osmosis) Plugin for Eliza"
    providers := [walletProvider]
    actions := [executeTransfer]
    evaluators := [] }

/-! ## Helper lemmas -/

theorem portfolioKey_ne_priceKey (a b : String) :
    "portfolio-" ++ a ≠ "price-" ++ b := by
  intro h
  have h2 : ("portfolio-" ++ a).data = ("price-" ++ b).data := by rw [h]
  rw [String.data_append, String.data_append] at h2
  simp [String.data] at h2

/-- Away-from-zero rounding to an integer, the mathematical reference for
`Dec.roundAwayToInt`. -/
def awaySpec (q : ℚ) : ℤ :=
  if 0 ≤ q then (⌈q⌉₊ : ℤ) else -(⌈-q⌉₊ : ℤ)

theorem dec_roundAway_spec (d : Dec) : d.roundAwayToInt = awaySpec d.val := by
  have hp : 0 < pow10 d.e := Nat.pos_pow_of_pos _ (by norm_num)
  have h10 : (0 : ℚ) < (10 : ℚ) ^ d.e := by positivity
  have hceil := nat_ceilDiv_eq d.m.natAbs (pow10 d.e) hp
  have habs : d.m.natAbs + pow10 d.e - 1 = d.m.natAbs + (pow10 d.e - 1) := by omega
  rcases lt_or_le d.m 0 with hm | hm
  · have hval : d.val < 0 := by
      have hmq : (d.m : ℚ) < 0 := by exact_mod_cast hm
      exact div_neg_of_neg_of_pos hmq h10
    have habs' : ((d.m.natAbs : ℕ) : ℚ) = -(d.m : ℚ) := by
      rw [Int.cast_natAbs, abs_of_neg hm]
      push_cast
      ring
    rw [Dec.roundAwayToInt, awaySpec, if_neg (not_le.mpr hval)]
    simp only [if_pos hm]
    congr 2
    rw [hceil]
    congr 1
    rw [habs', pow10_cast_q]
    unfold Dec.val
    ring
  · have hval : 0 ≤ d.val := by
      have hmq : (0 : ℚ) ≤ (d.m : ℚ) := by exact_mod_cast hm
      unfold Dec.val
      positivity
    have habs' : ((d.m.natAbs : ℕ) : ℚ) = (d.m : ℚ) := by
      rw [Int.cast_natAbs, abs_of_nonneg hm]
    rw [Dec.roundAwayToInt, awaySpec, if_pos hval]
    simp only [if_neg (not_lt.mpr hm)]
    congr 1
    rw [hceil]
    congr 1
    rw [habs', pow10_cast_q]
    unfold Dec.val
    ring

theorem gasWithBuffer_spec (g : ℕ) :
    gasWithBufferOf g = ⌈(g : ℚ) * (13 / 10)⌉₊ := by
  have h := nat_ceilDiv_eq (13 * g) 10 (by norm_num)
  have h2 : 13 * g + 10 - 1 = 13 * g + 9 := by omega
  rw [h2] at h
  rw [gasWithBufferOf, h]
  congr 1
  push_cast
  ring

/-! ## Claim theorems -/

/-- C10: the exported `cosmosPlugin` registers exactly one provider (the
wallet provider), exactly one action (the `COSMOS_SEND_TOKEN` transfer
action backed by `transferHandler`), and no evaluators. -/
theorem c10_plugin_registration :
    cosmosPlugin.providers = [walletProvider] ∧
    cosmosPlugin.actions = [executeTransfer] ∧
    cosmosPlugin.evaluators = [] ∧
    cosmosPlugin.providers.length = 1 ∧
    cosmosPlugin.actions.length = 1 ∧
    cosmosPlugin.actions.map ElizaAction.name = ["COSMOS_SEND_TOKEN"] ∧
    cosmosPlugin.actions.map ElizaAction.handlerFn = [transferHandler] ∧
    cosmosPlugin.providers.map ElizaProvider.get = [walletProviderGet] := by
  refine ⟨rfl, rfl, rfl, rfl, rfl, rfl, rfl, rfl⟩

/-- A concrete Osmosis-like chain info used for counterexamples and
witnesses. -/
def ciOsmo : CosmosChainInfo :=
  { chain_name := some "osmosis"
    pretty_name := some "Osmosis"
    bech32Pfx := some "osmo"
    coingecko_id := some "osmosis"
    denom := some "uosmo"
    decimals := some 6
    apis := ["https://rpc.osmosis.zone"]
    fees := none }

/-- C3 counterexample: gas estimation is not purely delegated.  For a
simulated gas of 100000 on `ciOsmo`, `estimateGas` returns a locally
computed fee — gas `"130000"` (the simulated value times 1.3) and a
locally multiplied amount `"1300"` — and not the pass-through fee of the
spec's delegation reading. -/
theorem c3_counterexample :
    estimateGas (.ok 100000) ciOsmo ≠ delegatedFeeSpec 100000 ∧
    estimateGas (.ok 100000) ciOsmo =
      ⟨some [⟨some "uosmo", "1300"⟩], some "130000"⟩ := by
  constructor
  · decide
  · decide

/-- C3 (amended): signing, broadcast and the gas simulation itself are
delegated to the libraries, but `estimateGas` computes the final fee
locally (buffered gas, multiplied by the average gas price), and the local
address helpers agree with the library reference formula: the address is
the Bech32 encoding, under the chain prefix, of RIPEMD-160 of SHA-256 of
the (compressed) public key. -/
theorem c3_local_helpers_agree :
    (∀ (sha256 ripemd160 toWords : ByteSeq → ByteSeq)
       (bech32Encode : String → ByteSeq → String) (publicKey : ByteSeq)
       (pre : String),
       generateCosmosAddress sha256 ripemd160 toWords bech32Encode publicKey pre =
         cosmosAddressReference sha256 ripemd160 toWords bech32Encode publicKey pre) ∧
    (∀ (compressPubkey sha256 ripemd160 toWords : ByteSeq → ByteSeq)
       (bech32Encode : String → ByteSeq → String) (publicKey : ByteSeq),
       deriveCosmosAddressTEE compressPubkey sha256 ripemd160 toWords bech32Encode publicKey =
         cosmosAddressReference sha256 ripemd160 toWords bech32Encode
           (compressPubkey publicKey) "osmo") ∧
    (∀ (g : ℕ) (ci : CosmosChainInfo),
       (estimateGas (.ok g) ci).gas = some (toString (gasWithBufferOf g)) ∧
       gasWithBufferOf g = ⌈(g : ℚ) * (13 / 10)⌉₊) := by
  refine ⟨fun _ _ _ _ _ _ => rfl, fun _ _ _ _ _ _ => rfl, fun g ci => ⟨rfl, gasWithBuffer_spec g⟩⟩

theorem sendCall_characterization (content : TransferCosmosContent)
    (env : HandlerEnv) (out : HandlerOut) (call : SendCall)
    (h : transferHandler content env = .ok out) (hc : out.sendCall = some call) :
    ∃ a ci, connectWalletM env.settings env.registry env.net = .ok (a, ci) ∧
      call = { fromAddress := a
               toAddress := content.recipient.toStr
               denom := content.tokenDenom.toStr
               amount := content.amount.toStr
               fee := estimateGas env.simulate ci
               memo := content.memo.toStr ++ memoSuffix } := by
  unfold transferHandler at h
  split at h
  · exact absurd h (by simp)
  · split at h
    · injection h with h'
      rw [← h'] at hc
      exact absurd hc (by simp)
    · split at h
      · injection h with h'
        rw [← h'] at hc
        exact absurd hc (by simp)
      · split at h
        · injection h with h'
          rw [← h'] at hc
          exact absurd hc (by simp)
        · split at h
          · injection h with h'
            rw [← h'] at hc
            exact absurd hc (by simp)
          · rename_i signerAddress chainInfo heq
            refine ⟨signerAddress, chainInfo, heq, ?_⟩
            split at h
            · injection h with h'
              rw [← h'] at hc
              simp only [Option.some.injEq] at hc
              exact hc.symm
            · split at h
              · injection h with h'
                rw [← h'] at hc
                simp only [Option.some.injEq] at hc
                exact hc.symm
              · injection h with h'
                rw [← h'] at hc
                simp only [Option.some.injEq] at hc
                exact hc.symm

theorem dec_ofNat_val (n : ℕ) : (Dec.ofNat n).val = (n : ℚ) := by
  simp [Dec.ofNat, Dec.val]

/-- C5: `estimateGas` is total.  On a successful simulation it returns the
simulated gas times 1.3 rounded up, and a single fee coin equal to that
gas times the average gas price rounded up to an integer, the gas price
defaulting to 0.01 and the fee denom defaulting to the chain denom; on a
simulation error it returns the empty fee object, and the transfer handler
passes the `estimateGas` result unchanged to `sendTokens`. -/
theorem c5_estimateGas_behavior :
    (∀ (g : ℕ) (ci : CosmosChainInfo),
      ∃ amt : ℤ,
        estimateGas (.ok g) ci =
          ⟨some [⟨feeDenomOf ci, toString amt⟩],
           some (toString (gasWithBufferOf g))⟩ ∧
        gasWithBufferOf g = ⌈(g : ℚ) * (13 / 10)⌉₊ ∧
        amt = awaySpec ((gasWithBufferOf g : ℚ) * (avgGasPriceOf ci).val) ∧
        (feeHead ci = none →
          avgGasPriceOf ci = ⟨1, 2⟩ ∧ Dec.val ⟨1, 2⟩ = 1 / 100 ∧
            feeDenomOf ci = ci.denom)) ∧
    (∀ (e : String) (ci : CosmosChainInfo),
      estimateGas (.error e) ci = emptyFee ∧ emptyFee = ⟨none, none⟩) ∧
    (∀ (content : TransferCosmosContent) (env : HandlerEnv) (out : HandlerOut)
       (call : SendCall) (a : String) (ci : CosmosChainInfo),
      transferHandler content env = .ok out → out.sendCall = some call →
      connectWalletM env.settings env.registry env.net = .ok (a, ci) →
      call.fee = estimateGas env.simulate ci) := by
  refine ⟨?_, ?_, ?_⟩
  · intro g ci
    refine ⟨Dec.roundAwayToInt (Dec.mul (Dec.ofNat (gasWithBufferOf g)) (avgGasPriceOf ci)),
      rfl, gasWithBuffer_spec g, ?_, ?_⟩
    · rw [dec_roundAway_spec, dec_mul_val, dec_ofNat_val]
    · intro hf
      refine ⟨?_, by norm_num [Dec.val], ?_⟩
      · rw [avgGasPriceOf, hf]
        rfl
      · rw [feeDenomOf, hf]
        rfl
  · intro e ci
    exact ⟨rfl, rfl⟩
  · intro content env out call a ci h hc hcw
    obtain ⟨a', ci', hcw', hcall⟩ := sendCall_characterization content env out call h hc
    rw [hcw] at hcw'
    injection hcw' with h2
    have h3 : ci = ci' := congrArg Prod.snd h2
    rw [hcall, ← h3]

/-- C9: every `sendTokens` call made by the handler carries the extracted
memo (JS-coerced to a string) concatenated with the plugin suffix, so an
undefined memo makes the broadcast memo begin with the text
`undefined`. -/
theorem c9_memo_suffix :
    ∀ (content : TransferCosmosContent) (env : HandlerEnv) (out : HandlerOut)
      (call : SendCall),
      transferHandler content env = .ok out → out.sendCall = some call →
      call.memo = content.memo.toStr ++ memoSuffix ∧
      (content.memo = .undef → ∃ rest, call.memo = "undefined" ++ rest) := by
  intro content env out call h hc
  obtain ⟨a, ci, hcw, hcall⟩ := sendCall_characterization content env out call h hc
  constructor
  · rw [hcall]
  · intro hm
    rw [hcall, hm]
    exact ⟨memoSuffix, rfl⟩

theorem guard_ok_of_recipient (content : TransferCosmosContent)
    (hrec : content.recipient.truthy = false ∨ content.recipient.isString = true) :
    ∃ v, isTransferCosmosContent content = .ok v := by
  unfold isTransferCosmosContent
  by_cases h1 : (!(content.tokenDenom.isString &&
      (content.amount.isString || content.amount.isNumber))) = true
  · rw [if_pos h1]
    exact ⟨false, rfl⟩
  · rw [if_neg h1]
    by_cases h2 : content.recipient.truthy = true
    · rw [if_pos h2]
      cases hr : content.recipient with
      | str s =>
        refine ⟨if (jsStartsWith s "cosmos1" || jsStartsWith s "osmo1") = true
          then !(content.memo.truthy && !content.memo.isString) else false, ?_⟩
        dsimp only
        split
        · rfl
        · rfl
      | undef =>
        rw [hr] at h2
        exact absurd h2 (by simp [JsVal.truthy])
      | null =>
        rw [hr] at h2
        exact absurd h2 (by simp [JsVal.truthy])
      | num d =>
        rcases hrec with h | h
        · rw [h2] at h
          exact absurd h (by simp)
        · rw [hr] at h
          exact absurd h (by simp [JsVal.isString])
    · rw [if_neg h2]
      exact ⟨_, rfl⟩

/-- C1 (amended): whenever the extracted recipient is not a truthy
non-string (the case in which the type guard would throw), the handler
returns a boolean; it returns `true` exactly when validation passes, a
truthy recipient and amount are present, the wallet connects, and the
broadcast succeeds with code 0 — in which case the callback text carries
the transaction hash — and in every other case it returns `false` with an
error callback text. -/
theorem c1_handler_result (content : TransferCosmosContent) (env : HandlerEnv)
    (hrec : content.recipient.truthy = false ∨ content.recipient.isString = true) :
    ∃ out, transferHandler content env = .ok out ∧
      (out.result = true ↔
        (isTransferCosmosContent content = .ok true ∧
         content.recipient.truthy = true ∧ content.amount.truthy = true ∧
         (∃ a ci, connectWalletM env.settings env.registry env.net = .ok (a, ci)) ∧
         (∃ r, env.send = .ok r ∧ r.code = 0))) ∧
      (out.result = true →
        ∃ r, env.send = .ok r ∧ r.code = 0 ∧
          out.callbacks = [successPre ++ r.transactionHash]) ∧
      (out.result = false →
        ∃ msg, out.callbacks = [msg] ∧
          (msg = invalidContentMsg ∨ msg = noRecipientMsg ∨ msg = noAmountMsg ∨
            ∃ s, msg = errPre ++ s)) := by
  obtain ⟨v, hval⟩ := guard_ok_of_recipient content hrec
  unfold transferHandler
  rw [hval]
  dsimp only
  by_cases hv : (!v) = true
  · rw [if_pos hv]
    have hvf : v = false := by
      cases v
      · rfl
      · exact absurd hv (by simp)
    refine ⟨_, rfl, ?_, ?_, ?_⟩
    · constructor
      · intro h
        exact absurd h (by simp)
      · rintro ⟨h1, -⟩
        rw [hvf] at h1
        exact absurd h1 (by simp)
    · intro h
      exact absurd h (by simp)
    · intro _
      exact ⟨invalidContentMsg, rfl, .inl rfl⟩
  · rw [if_neg hv]
    have hvt : v = true := by
      cases v
      · simp at hv
      · rfl
    by_cases hr : (!content.recipient.truthy) = true
    · rw [if_pos hr]
      refine ⟨_, rfl, ?_, ?_, ?_⟩
      · constructor
        · intro h
          exact absurd h (by simp)
        · rintro ⟨-, h2, -⟩
          rw [h2] at hr
          exact absurd hr (by simp)
      · intro h
        exact absurd h (by simp)
      · intro _
        exact ⟨noRecipientMsg, rfl, .inr (.inl rfl)⟩
    · rw [if_neg hr]
      have hrt : content.recipient.truthy = true := by
        cases hx : content.recipient.truthy
        · rw [hx] at hr
          simp at hr
        · rfl
      by_cases ha : (!content.amount.truthy) = true
      · rw [if_pos ha]
        refine ⟨_, rfl, ?_, ?_, ?_⟩
        · constructor
          · intro h
            exact absurd h (by simp)
          · rintro ⟨-, -, h3, -⟩
            rw [h3] at ha
            exact absurd ha (by simp)
        · intro h
          exact absurd h (by simp)
        · intro _
          exact ⟨noAmountMsg, rfl, .inr (.inr (.inl rfl))⟩
      · rw [if_neg ha]
        have hat : content.amount.truthy = true := by
          cases hx : content.amount.truthy
          · rw [hx] at ha
            simp at ha
          · rfl
        cases hcw : connectWalletM env.settings env.registry env.net with
        | error e =>
          refine ⟨_, rfl, ?_, ?_, ?_⟩
          · constructor
            · intro h
              exact absurd h (by simp)
            · rintro ⟨-, -, -, ⟨a, ci, hc⟩, -⟩
              exact absurd hc (by simp)
          · intro h
            exact absurd h (by simp)
          · intro _
            exact ⟨errPre ++ e, rfl, .inr (.inr (.inr ⟨e, rfl⟩))⟩
        | ok p =>
          obtain ⟨sa, ci⟩ := p
          cases hsend : env.send with
          | error e =>
            refine ⟨_, rfl, ?_, ?_, ?_⟩
            · constructor
              · intro h
                exact absurd h (by simp)
              · rintro ⟨-, -, -, -, ⟨r, hrk, -⟩⟩
                exact absurd hrk (by simp)
            · intro h
              exact absurd h (by simp)
            · intro _
              exact ⟨errPre ++ e, rfl, .inr (.inr (.inr ⟨e, rfl⟩))⟩
          | ok r =>
            dsimp only
            by_cases hcode : r.code ≠ 0
            · rw [if_pos hcode]
              refine ⟨_, rfl, ?_, ?_, ?_⟩
              · constructor
                · intro h
                  exact absurd h (by simp)
                · rintro ⟨-, -, -, -, ⟨r', hrk, hc0⟩⟩
                  injection hrk with hrr
                  rw [← hrr] at hc0
                  exact absurd hc0 hcode
              · intro h
                exact absurd h (by simp)
              · intro _
                exact ⟨errPre ++ "Broadcast failed with code " ++ toString r.code, rfl,
                  .inr (.inr (.inr ⟨"Broadcast failed with code " ++ toString r.code,
                    String.append_assoc errPre "Broadcast failed with code " (toString r.code)⟩))⟩
            · rw [if_neg hcode]
              have hc0 : r.code = 0 := by
                by_contra hx
                exact hcode hx
              refine ⟨_, rfl, ?_, ?_, ?_⟩
              · constructor
                · intro _
                  exact ⟨by rw [hvt], hrt, hat, ⟨sa, ci, rfl⟩, ⟨r, rfl, hc0⟩⟩
                · intro _
                  rfl
              · intro _
                exact ⟨r, rfl, hc0, rfl⟩
              · intro h
                exact absurd h (by simp)

instance {ε α : Type} [DecidableEq ε] [DecidableEq α] : DecidableEq (Except ε α) := fun a b =>
  match a, b with
  | .ok x, .ok y =>
    if h : x = y then .isTrue (by rw [h])
    else .isFalse (by intro hc; injection hc; exact h (by assumption))
  | .error x, .error y =>
    if h : x = y then .isTrue (by rw [h])
    else .isFalse (by intro hc; injection hc; exact h (by assumption))
  | .ok _, .error _ => .isFalse (by intro hc; exact Except.noConfusion hc)
  | .error _, .ok _ => .isFalse (by intro hc; exact Except.noConfusion hc)

/-- Concrete settings: mnemonic, custom RPC, chain name, coingecko id and
denom configured. -/
def settingsEnv : Settings := fun k =>
  if k = "COSMOS_MNEMONIC" then some "test test test"
  else if k = "COSMOS_RPC_URL" then some "https://rpc.osmosis.zone"
  else if k = "COSMOS_CHAIN_NAME" then some "osmosis"
  else if k = "COSMOS_COINGECKO_ID" then some "osmosis"
  else if k = "COSMOS_CHAIN_DENOM" then some "uosmo"
  else none

/-- A fully successful handler environment: connect, simulate and
broadcast all succeed, with broadcast code 0. -/
def hEnvGood : HandlerEnv :=
  { settings := settingsEnv
    registry := []
    net := .ok "osmo1senderaddress"
    simulate := .ok 100000
    send := .ok ⟨0, "ABC123HASH"⟩ }

/-- A well-formed extracted transfer content with no memo. -/
def contentGood : TransferCosmosContent :=
  ⟨.str "uosmo", .str "osmo1recipient", .str "1000", .undef⟩

/-- The chain info `buildChainInfo` produces from `settingsEnv`. -/
def ciBuilt : CosmosChainInfo :=
  { chain_name := some "osmosis"
    pretty_name := none
    bech32Pfx := none
    coingecko_id := some "osmosis"
    denom := some "uosmo"
    decimals := some 6
    apis := ["https://rpc.osmosis.zone"]
    fees := some [⟨some "uosmo", some ⟨25, 3⟩⟩] }

/-- The `sendTokens` call the handler makes for `contentGood` in
`hEnvGood`. -/
def callGood : SendCall :=
  { fromAddress := "osmo1senderaddress"
    toAddress := "osmo1recipient"
    denom := "uosmo"
    amount := "1000"
    fee := ⟨some [⟨some "uosmo", "3250"⟩], some "130000"⟩
    memo := "undefined" ++ memoSuffix }

/-- The handler outcome for `contentGood` in `hEnvGood`. -/
def outGood : HandlerOut :=
  { result := true
    callbacks := [successPre ++ "ABC123HASH"]
    sendCall := some callGood }

/-- An extracted content whose recipient is the number 1: truthy but not a
string. -/
def contentBadRecipient : TransferCosmosContent :=
  ⟨.str "uosmo", .num ⟨1, 0⟩, .str "5", .undef⟩

/-- C1 counterexample: with a truthy non-string recipient the handler does
not return `false` with an error callback; the type guard's `.startsWith`
call throws a `TypeError` that escapes the handler. -/
theorem c1_counterexample :
    transferHandler contentBadRecipient hEnvGood = .error JsError.typeError := by
  decide

/-- C1 witness: a fully successful concrete run. -/
theorem c1_witness :
    ∃ out, transferHandler contentGood hEnvGood = .ok out ∧
      (out.result = true ↔
        (isTransferCosmosContent contentGood = .ok true ∧
         contentGood.recipient.truthy = true ∧ contentGood.amount.truthy = true ∧
         (∃ a ci, connectWalletM hEnvGood.settings hEnvGood.registry hEnvGood.net = .ok (a, ci)) ∧
         (∃ r, hEnvGood.send = .ok r ∧ r.code = 0))) ∧
      (out.result = true →
        ∃ r, hEnvGood.send = .ok r ∧ r.code = 0 ∧
          out.callbacks = [successPre ++ r.transactionHash]) ∧
      (out.result = false →
        ∃ msg, out.callbacks = [msg] ∧
          (msg = invalidContentMsg ∨ msg = noRecipientMsg ∨ msg = noAmountMsg ∨
            ∃ s, msg = errPre ++ s)) :=
  c1_handler_result contentGood hEnvGood (.inr rfl)

/-- C5 witness: in the successful concrete run, the fee handed to
`sendTokens` is exactly the `estimateGas` result; on a simulation error
the fee is the empty object; on success the fee has the buffered gas. -/
theorem c5_witness :
    callGood.fee = estimateGas hEnvGood.simulate ciBuilt ∧
    estimateGas (.error "network error") ciOsmo = emptyFee ∧
    (∃ amt : ℤ, estimateGas (.ok 100000) ciOsmo =
      ⟨some [⟨feeDenomOf ciOsmo, toString amt⟩],
       some (toString (gasWithBufferOf 100000))⟩) := by
  refine ⟨?_, (c5_estimateGas_behavior.2.1 "network error" ciOsmo).1, ?_⟩
  · exact c5_estimateGas_behavior.2.2 contentGood hEnvGood outGood callGood
      "osmo1senderaddress" ciBuilt (by decide) (by decide) (by decide)
  · obtain ⟨amt, h1, -⟩ := c5_estimateGas_behavior.1 100000 ciOsmo
    exact ⟨amt, h1⟩

/-- C9 witness: the concrete run with an undefined memo broadcasts a memo
that is the string `undefined` followed by the plugin suffix. -/
theorem c9_witness :
    callGood.memo = contentGood.memo.toStr ++ memoSuffix ∧
    (contentGood.memo = .undef → ∃ rest, callGood.memo = "undefined" ++ rest) :=
  c9_memo_suffix contentGood hEnvGood outGood callGood (by decide) (by decide)

/-- C8: `buildChainInfo` throws on a falsy mnemonic; with a custom RPC it
builds the chain info entirely from settings (chain name, bech32 prefix,
coingecko id, custom denom, decimals defaulting to 6, a fee token with
average gas price 0.025); otherwise it looks the chain up in the registry
by `COSMOS_CHAIN_NAME`, throwing when no chain matches. -/
theorem c8_buildChainInfo (settings : Settings) (registry : List CosmosChainInfo) :
    (jsTruthyS (settings "COSMOS_MNEMONIC") = false →
      buildChainInfo settings registry = .error "COSMOS_MNEMONIC not configured") ∧
    (jsTruthyS (settings "COSMOS_MNEMONIC") = true →
      (∀ rpc, settings "COSMOS_RPC_URL" = some rpc → rpc ≠ "" →
        buildChainInfo settings registry = .ok
          { chain_name := settings "COSMOS_CHAIN_NAME"
            pretty_name := none
            bech32Pfx := settings "COSMOS_BECH32_PREFIX"
            coingecko_id := settings "COSMOS_COINGECKO_ID"
            denom := settings "COSMOS_CHAIN_DENOM"
            decimals := customDecimalsOf (settings "COSMOS_CHAIN_DECIMALS")
            apis := [rpc]
            fees := some [⟨settings "COSMOS_CHAIN_DENOM", some ⟨25, 3⟩⟩] }) ∧
      (settings "COSMOS_CHAIN_DECIMALS" = none →
        customDecimalsOf (settings "COSMOS_CHAIN_DECIMALS") = some 6) ∧
      Dec.val ⟨25, 3⟩ = 1 / 40) ∧
    (jsTruthyS (settings "COSMOS_MNEMONIC") = true →
      jsTruthyS (settings "COSMOS_RPC_URL") = false →
      ((registry.find? (fun c => c.chain_name == settings "COSMOS_CHAIN_NAME") = none →
          ∃ e, buildChainInfo settings registry = .error e) ∧
        (∀ cd,
          registry.find? (fun c => c.chain_name == settings "COSMOS_CHAIN_NAME") = some cd →
          buildChainInfo settings registry =
            .ok (registryPatch cd (settings "COSMOS_COINGECKO_ID"))))) := by
  refine ⟨?_, ?_, ?_⟩
  · intro h
    unfold buildChainInfo
    rw [h]
    rfl
  · intro h
    refine ⟨?_, ?_, by norm_num [Dec.val]⟩
    · intro rpc hr hne
      unfold buildChainInfo
      rw [h, hr]
      dsimp only
      rw [if_neg hne]
      rfl
    · intro h0
      rw [h0]
      rfl
  · intro h h2
    constructor
    · intro hf
      unfold buildChainInfo
      rw [h]
      cases hrp : settings "COSMOS_RPC_URL" with
      | none =>
        dsimp only
        rw [hf]
        exact ⟨_, rfl⟩
      | some r =>
        have hre : r = "" := by
          rw [hrp] at h2
          simpa [jsTruthyS] using h2
        dsimp only
        rw [hre, hf]
        exact ⟨_, rfl⟩
    · intro cd hf
      unfold buildChainInfo
      rw [h]
      cases hrp : settings "COSMOS_RPC_URL" with
      | none =>
        dsimp only
        rw [hf]
        rfl
      | some r =>
        have hre : r = "" := by
          rw [hrp] at h2
          simpa [jsTruthyS] using h2
        dsimp only
        rw [hre, hf]
        rfl

/-- C8 witness: with `settingsEnv` (mnemonic and custom RPC configured)
`buildChainInfo` builds the environment-based chain info. -/
theorem c8_witness :
    buildChainInfo settingsEnv [] = .ok
      { chain_name := settingsEnv "COSMOS_CHAIN_NAME"
        pretty_name := none
        bech32Pfx := settingsEnv "COSMOS_BECH32_PREFIX"
        coingecko_id := settingsEnv "COSMOS_COINGECKO_ID"
        denom := settingsEnv "COSMOS_CHAIN_DENOM"
        decimals := customDecimalsOf (settingsEnv "COSMOS_CHAIN_DECIMALS")
        apis := ["https://rpc.osmosis.zone"]
        fees := some [⟨settingsEnv "COSMOS_CHAIN_DENOM", some ⟨25, 3⟩⟩] } :=
  ((c8_buildChainInfo settingsEnv []).2.1 (by decide)).1 "https://rpc.osmosis.zone"
    (by decide) (by decide)

theorem cacheGet_set_same (c : Cache) (k : String) (v : CacheVal) :
    cacheGet (cacheSet c k v) k = some v := by
  unfold cacheGet cacheSet
  rw [List.find?_cons_of_pos _ (by simp)]
  rfl

theorem fetchPortfolioValue_ok_cache (ci : CosmosChainInfo) (settings : Settings)
    (registry : List CosmosChainInfo) (st : WState) (env : CallEnv)
    (p : WalletPortfolio) (st₁ : WState) (b : Bool)
    (h : fetchPortfolioValue ci settings registry st env = .ok (p, st₁, b)) :
    cacheGet st₁.cache ("portfolio-" ++ jsTemplate ci.chain_name) =
      some (.portfolio p) := by
  unfold fetchPortfolioValue at h
  dsimp only at h
  split at h
  · rename_i p₀ heq
    injection h with h'
    have hp : p₀ = p := congrArg Prod.fst h'
    have hst : st = st₁ := congrArg (fun x => x.2.1) h'
    rw [← hst, heq, hp]
  · split at h
    · exact absurd h (by simp)
    · rename_i sa st' hconn
      split at h
      · exact absurd h (by simp)
      · rename_i balances hbal
        injection h with h'
        simp only [Prod.mk.injEq] at h'
        obtain ⟨hp, hst, -⟩ := h'
        rw [← hst]
        dsimp only
        rw [cacheGet_set_same]
        exact congrArg some (congrArg CacheVal.portfolio hp)

/-- C7: after any successful `fetchPortfolioValue` call, a second call on
the same instance (any settings, registry and oracle answers — the chain
is not contacted) returns the same portfolio from the cache, leaves the
state unchanged, and reports that no balance query was made. -/
theorem c7_portfolio_cache (ci : CosmosChainInfo) (settings : Settings)
    (registry : List CosmosChainInfo) (st : WState) (env : CallEnv)
    (p : WalletPortfolio) (st₁ : WState) (b : Bool)
    (settings' : Settings) (registry' : List CosmosChainInfo) (env' : CallEnv)
    (h : fetchPortfolioValue ci settings registry st env = .ok (p, st₁, b)) :
    fetchPortfolioValue ci settings' registry' st₁ env' = .ok (p, st₁, false) := by
  have hkey := fetchPortfolioValue_ok_cache ci settings registry st env p st₁ b h
  unfold fetchPortfolioValue
  dsimp only
  rw [hkey]

theorem str_empty_append (s : String) : "" ++ s = s := by
  simp

/-- C2: from a fresh instance, `fetchPortfolioValue` builds a single-token
portfolio whose balance is the amount of the balance entry matching the
configured denom (0 when absent, with denom defaulting to `uosmo` and
decimals to 6 via `getD`), whose uiAmount is the balance scaled by
`10 ^ (-decimals)`, and whose total equals uiAmount times the fetched
price; and `formatPortfolio` renders the total and per-token USD values
rounded to two decimal places (half away from zero). -/
theorem c2_portfolio_shape :
    (∀ (ci : CosmosChainInfo) (settings : Settings)
       (registry : List CosmosChainInfo) (env : CallEnv) (bs : List Coin)
       (p : WalletPortfolio) (st₁ : WState) (b : Bool),
      env.balances = .ok bs →
      fetchPortfolioValue ci settings registry initWState env = .ok (p, st₁, b) →
      ∃ t : CosmosToken, p.tokens = [t] ∧
        t.balance =
          ((bs.find? (fun c => c.denom == ci.denom.getD "uosmo")).map Coin.amount).getD 0 ∧
        t.uiAmount.val = (t.balance : ℚ) / (10 : ℚ) ^ (ci.decimals.getD 6) ∧
        t.priceUsd = (fetchTokenPrice (jsOrStr ci.coingecko_id "osmosis") env.priceResp []).1 ∧
        p.totalUsd.val = t.uiAmount.val * t.priceUsd.val ∧
        t.valueUsd = p.totalUsd ∧ t.decimals = ci.decimals.getD 6) ∧
    (∀ (addr : Option String) (ci : CosmosChainInfo) (tp : WalletPortfolio)
       (t : CosmosToken), tp.tokens = [t] →
      ∃ pre mid1 mid2 post,
        formatPortfolio addr ci tp =
          pre ++ "Total Value: $" ++ renderCents (centsSpec tp.totalUsd.val) ++ mid1 ++
          " ($" ++ renderCents (centsSpec t.valueUsd.val) ++ ")\n" ++ mid2 ++
          ": $" ++ renderCents (centsSpec t.priceUsd.val) ++ post) := by
  refine ⟨?_, ?_⟩
  · intro ci settings registry env bs p st₁ b hbs h
    unfold fetchPortfolioValue at h
    dsimp only at h
    split at h
    · rename_i p₀ heq
      rw [show (initWState.cache : Cache) = [] from rfl] at heq
      exact absurd heq (by simp [cacheGet])
    · split at h
      · exact absurd h (by simp)
      · rename_i sa st' hconn
        split at h
        · exact absurd h (by simp)
        · rename_i balances hbal
          rw [hbs] at hbal
          injection hbal with hbal'
          subst hbal'
          have hsig : initWState.signer = none := rfl
          rw [hsig] at hconn
          dsimp only at hconn
          split at hconn
          · exact absurd hconn (by simp)
          · rename_i addr rest hcw
            injection hconn with hc'
            simp only [Prod.mk.injEq] at hc'
            obtain ⟨-, hst'⟩ := hc'
            subst hst'
            injection h with h'
            simp only [Prod.mk.injEq] at h'
            obtain ⟨hp, hst, -⟩ := h'
            subst hp
            refine ⟨_, rfl, rfl, ?_, rfl, dec_mul_val _ _, rfl, rfl⟩
            simp [Dec.shiftDown, Dec.val]
  · intro addr ci tp t ht
    refine ⟨("Chain: " ++ jsTemplate ci.chain_name ++ "\n") ++
        (match addr with | some a => "Account Address: " ++ a ++ "\n\n" | none => ""),
      "\n\nToken Balances:\n" ++ (jsTemplate t.name ++ " (" ++ t.symbol ++ "): " ++
        t.uiAmount.render),
      "\nMarket Prices:\n" ++ t.symbol, "\n", ?_⟩
    unfold formatPortfolio
    rw [ht]
    simp only [String.join, List.map_cons, List.map_nil, List.foldl_cons, List.foldl_nil,
      str_empty_append, ← dec_toFixed2_spec, String.append_assoc]

theorem cacheGet_set_other (c : Cache) (k k' : String) (v : CacheVal)
    (h : k' ≠ k) : cacheGet (cacheSet c k v) k' = cacheGet c k' := by
  unfold cacheGet cacheSet
  rw [List.find?_cons_of_neg]
  simp
  exact fun hc => absurd hc.symm h

theorem cacheGet_set_cases (c : Cache) (k k' : String) (v w : CacheVal)
    (h : cacheGet (cacheSet c k v) k' = some w) :
    (k' = k ∧ w = v) ∨ cacheGet c k' = some w := by
  by_cases hkk : k' = k
  · rw [hkk, cacheGet_set_same] at h
    injection h with h'
    exact .inl ⟨hkk, h'.symm⟩
  · rw [cacheGet_set_other c k k' v hkk] at h
    exact .inr h

theorem fetchTokenPrice_zero (cgID : String) (resp : PriceResp) (cache : Cache)
    (h : ∀ g, cacheGet cache ("price-" ++ g) = none) :
    fetchTokenPrice cgID resp cache = (Dec.zero, cache) := by
  unfold fetchTokenPrice
  rw [h cgID]

theorem fetchPV_zero_price (ci : CosmosChainInfo) (settings : Settings)
    (registry : List CosmosChainInfo) (st : WState) (env : CallEnv)
    (p : WalletPortfolio) (st₁ : WState) (b : Bool)
    (hInv : PriceCacheInv st.cache)
    (h : fetchPortfolioValue ci settings registry st env = .ok (p, st₁, b)) :
    PriceCacheInv st₁.cache ∧ p.totalUsd.m = 0 ∧
      ∀ t ∈ p.tokens, t.priceUsd.m = 0 ∧ t.valueUsd.m = 0 := by
  unfold fetchPortfolioValue at h
  dsimp only at h
  split at h
  · rename_i p₀ heq
    injection h with h'
    simp only [Prod.mk.injEq] at h'
    obtain ⟨hp, hst, -⟩ := h'
    subst hp
    subst hst
    exact ⟨hInv, (hInv.2 _ _ heq).1, (hInv.2 _ _ heq).2⟩
  · split at h
    · exact absurd h (by simp)
    · rename_i sa st' hconn
      have hcache : st'.cache = st.cache := by
        split at hconn
        · injection hconn with hc
          simp only [Prod.mk.injEq] at hc
          obtain ⟨-, h2⟩ := hc
          rw [← h2]
        · split at hconn
          · exact absurd hconn (by simp)
          · injection hconn with hc
            simp only [Prod.mk.injEq] at hc
            obtain ⟨-, h2⟩ := hc
            rw [← h2]
      have hInv' : PriceCacheInv st'.cache := hcache ▸ hInv
      have hpr := fetchTokenPrice_zero (jsOrStr ci.coingecko_id "osmosis")
        env.priceResp st'.cache hInv'.1
      split at h
      · exact absurd h (by simp)
      · rename_i balances hbal
        injection h with h'
        simp only [Prod.mk.injEq] at h'
        obtain ⟨hp, hst, -⟩ := h'
        subst hp
        subst hst
        rw [hpr]
        refine ⟨⟨?_, ?_⟩, ?_, ?_⟩
        · intro g
          dsimp only
          rw [cacheGet_set_other _ _ _ _
            (Ne.symm (portfolioKey_ne_priceKey (jsTemplate ci.chain_name) g))]
          exact hInv'.1 g
        · intro k q hq
          dsimp only at hq
          rcases cacheGet_set_cases _ _ _ _ _ hq with ⟨-, hqv⟩ | hold
          · injection hqv with hq2
            subst hq2
            refine ⟨mul_zero _, ?_⟩
            intro t ht
            simp only [List.mem_singleton] at ht
            subst ht
            exact ⟨rfl, mul_zero _⟩
          · exact hInv'.2 _ _ hold
        · exact mul_zero _
        · intro t ht
          simp only [List.mem_singleton] at ht
          subst ht
          exact ⟨rfl, mul_zero _⟩

theorem wStep_inv (ci : CosmosChainInfo) (st : WState) (op : WOp)
    (hInv : PriceCacheInv st.cache) : PriceCacheInv (wStep ci st op).cache := by
  cases op with
  | fetchPortfolio settings registry env =>
    unfold wStep
    dsimp only
    cases hf : fetchPortfolioValue ci settings registry st env with
    | error e => exact hInv
    | ok triple =>
      obtain ⟨p, st₁, b⟩ := triple
      exact (fetchPV_zero_price ci settings registry st env p st₁ b hInv hf).1
  | fetchPrice cgID resp =>
    unfold wStep
    dsimp only
    rw [fetchTokenPrice_zero cgID resp st.cache hInv.1]
    exact hInv

theorem wRun_inv (ci : CosmosChainInfo) (ops : List WOp) (st : WState)
    (hInv : PriceCacheInv st.cache) : PriceCacheInv (wRun ci st ops).cache := by
  induction ops generalizing st with
  | nil => exact hInv
  | cons op ops ih => exact ih (wStep ci st op) (wStep_inv ci st op hInv)

theorem initWState_inv : PriceCacheInv initWState.cache := by
  constructor
  · intro g
    rfl
  · intro k q hq
    exact absurd hq (by simp [cacheGet, initWState])

/-- C6: in the second `WalletProvider` implementation the price fetch runs
only when the cache already holds a truthy price, and the price key is
written only inside that branch; so from the empty cache the absence of
every price key is an invariant of every operation, `fetchTokenPrice`
returns 0 on every call, and every portfolio produced has price and total
USD values 0 (rendered as the string `0`). -/
theorem c6_price_cache_invariant :
    (∀ (ci : CosmosChainInfo) (st : WState) (op : WOp),
      PriceCacheInv st.cache → PriceCacheInv (wStep ci st op).cache) ∧
    (∀ (ci : CosmosChainInfo) (ops : List WOp),
      PriceCacheInv (wRun ci initWState ops).cache) ∧
    (∀ (cgID : String) (resp : PriceResp) (cache : Cache),
      (∀ g, cacheGet cache ("price-" ++ g) = none) →
      fetchTokenPrice cgID resp cache = (Dec.zero, cache) ∧ Dec.zero.val = 0) ∧
    (∀ (ci : CosmosChainInfo) (settings : Settings)
       (registry : List CosmosChainInfo) (st : WState) (env : CallEnv)
       (p : WalletPortfolio) (st₁ : WState) (b : Bool),
      PriceCacheInv st.cache →
      fetchPortfolioValue ci settings registry st env = .ok (p, st₁, b) →
      p.totalUsd.val = 0 ∧ p.totalUsd.render = "0" ∧
        ∀ t ∈ p.tokens, t.priceUsd.val = 0 ∧ t.priceUsd.render = "0" ∧
          t.valueUsd.val = 0 ∧ t.valueUsd.render = "0") := by
  refine ⟨wStep_inv, fun ci ops => wRun_inv ci ops initWState initWState_inv, ?_, ?_⟩
  · intro cgID resp cache h
    exact ⟨fetchTokenPrice_zero cgID resp cache h, by norm_num [Dec.zero, Dec.val]⟩
  · intro ci settings registry st env p st₁ b hInv h
    obtain ⟨-, htot, htok⟩ := fetchPV_zero_price ci settings registry st env p st₁ b hInv h
    refine ⟨dec_val_zero_of_m_eq_zero _ htot, dec_render_zero _ htot, ?_⟩
    intro t ht
    obtain ⟨h1, h2⟩ := htok t ht
    exact ⟨dec_val_zero_of_m_eq_zero _ h1, dec_render_zero _ h1,
      dec_val_zero_of_m_eq_zero _ h2, dec_render_zero _ h2⟩

instance : DecidableEq Cache :=
  inferInstanceAs (DecidableEq (List (String × CacheVal)))

instance : DecidableEq WState := fun a b =>
  decidable_of_iff (a.cache = b.cache ∧ a.signer = b.signer) (by
    constructor
    · rintro ⟨h1, h2⟩
      cases a
      cases b
      cases h1
      cases h2
      rfl
    · intro h
      rw [h]
      exact ⟨rfl, rfl⟩)

/-- Oracle answers with one `uosmo` balance and a fetched price of 0.5. -/
def envBal : CallEnv :=
  { net := .ok "osmo1senderaddress"
    balances := .ok [⟨"uosmo", 1230000⟩]
    priceResp := .okv (some ⟨5, 1⟩) }

/-- Oracle answers where every network interaction fails. -/
def envDead : CallEnv :=
  { net := .error "rpc down"
    balances := .error "rpc down"
    priceResp := .fetchError }

/-- The portfolio the first implementation computes for `envBal`. -/
def portfolioV1 : WalletPortfolio :=
  { totalUsd := ⟨6150000, 7⟩
    tokens := [⟨some "Osmosis", "OSMO", 6, 1230000, ⟨1230000, 6⟩, ⟨5, 1⟩, ⟨6150000, 7⟩⟩] }

/-- The portfolio the second implementation computes for `envBal` (price
stuck at zero by the inverted cache check). -/
def portfolioV2 : WalletPortfolio :=
  { totalUsd := ⟨0, 6⟩
    tokens := [⟨some "osmosis", "UOSMO", 6, 1230000, ⟨1230000, 6⟩, ⟨0, 0⟩, ⟨0, 6⟩⟩] }

/-- The second-implementation instance state after the `envBal` call. -/
def wstateV2 : WState :=
  ⟨[("portfolio-osmosis", .portfolio portfolioV2)], some "osmo1senderaddress"⟩

/-- C4 counterexample: with identical settings and identical oracle
answers (`envBal`), the two side-by-side wallet providers disagree — the
first reports the fetched price 0.5 and total 0.615, the second reports
price 0 and total 0. -/
theorem c4_counterexample :
    (fetchPortfolioValueV1 "test test test" ciOsmo initWState envBal).toOption.map
        (fun x => x.1.tokens.map CosmosToken.priceUsd) = some [⟨5, 1⟩] ∧
    (fetchPortfolioValue ciOsmo settingsEnv [] initWState envBal).toOption.map
        (fun x => x.1.tokens.map CosmosToken.priceUsd) = some [⟨0, 0⟩] ∧
    (⟨5, 1⟩ : Dec).val ≠ (⟨0, 0⟩ : Dec).val ∧
    (fetchPortfolioValueV1 "test test test" ciOsmo initWState envBal).toOption.map
        (fun x => x.1.totalUsd) = some ⟨6150000, 7⟩ ∧
    (fetchPortfolioValue ciOsmo settingsEnv [] initWState envBal).toOption.map
        (fun x => x.1.totalUsd) = some ⟨0, 6⟩ ∧
    (⟨6150000, 7⟩ : Dec).val ≠ (⟨0, 6⟩ : Dec).val := by
  refine ⟨by decide, by decide, by norm_num [Dec.val], by decide, by decide,
    by norm_num [Dec.val]⟩

/-- C4 (amended): the duplicated wallet providers agree on the balance
selection and scaling — same base-token balance, same uiAmount, same
decimals — whenever the configured denom is not the empty string, though
they differ in price handling, token naming and symbols. -/
theorem c4_balances_agree (ci : CosmosChainInfo) (mnemonic : String)
    (settings : Settings) (registry : List CosmosChainInfo) (env : CallEnv)
    (p1 p2 : WalletPortfolio) (s1 s2 : WState) (b1 b2 : Bool)
    (hden : ci.denom ≠ some "")
    (h1 : fetchPortfolioValueV1 mnemonic ci initWState env = .ok (p1, s1, b1))
    (h2 : fetchPortfolioValue ci settings registry initWState env = .ok (p2, s2, b2)) :
    p1.tokens.map CosmosToken.balance = p2.tokens.map CosmosToken.balance ∧
    p1.tokens.map CosmosToken.uiAmount = p2.tokens.map CosmosToken.uiAmount ∧
    p1.tokens.map CosmosToken.decimals = p2.tokens.map CosmosToken.decimals := by
  unfold fetchPortfolioValueV1 at h1
  dsimp only at h1
  split at h1
  · rename_i p₀ heq
    rw [show (initWState.cache : Cache) = [] from rfl] at heq
    exact absurd heq (by simp [cacheGet])
  · split at h1
    · exact absurd h1 (by simp)
    · rename_i sa1 st1 hconn1
      split at h1
      · exact absurd h1 (by simp)
      · rename_i bs1 hbal1
        injection h1 with h1'
        simp only [Prod.mk.injEq] at h1'
        obtain ⟨hp1, -, -⟩ := h1'
        subst hp1
        unfold fetchPortfolioValue at h2
        dsimp only at h2
        split at h2
        · rename_i p₀ heq
          rw [show (initWState.cache : Cache) = [] from rfl] at heq
          exact absurd heq (by simp [cacheGet])
        · split at h2
          · exact absurd h2 (by simp)
          · rename_i sa2 st2 hconn2
            split at h2
            · exact absurd h2 (by simp)
            · rename_i bs2 hbal2
              injection h2 with h2'
              simp only [Prod.mk.injEq] at h2'
              obtain ⟨hp2, -, -⟩ := h2'
              subst hp2
              rw [hbal1] at hbal2
              injection hbal2 with hbs
              subst hbs
              rw [jsOrStr_eq_getD ci.denom "uosmo" hden]
              exact ⟨rfl, rfl, rfl⟩

/-- C4 witness: the agreement at the concrete `envBal` run. -/
theorem c4_witness :
    portfolioV1.tokens.map CosmosToken.balance =
      portfolioV2.tokens.map CosmosToken.balance ∧
    portfolioV1.tokens.map CosmosToken.uiAmount =
      portfolioV2.tokens.map CosmosToken.uiAmount ∧
    portfolioV1.tokens.map CosmosToken.decimals =
      portfolioV2.tokens.map CosmosToken.decimals :=
  c4_balances_agree ciOsmo "test test test" settingsEnv [] envBal
    portfolioV1 portfolioV2
    ⟨[("portfolio-osmosis", .portfolio portfolioV1), ("price-osmosis", .num ⟨5, 1⟩)],
      some "osmo1senderaddress"⟩
    wstateV2 true true (by decide) (by decide) (by decide)

/-- C7 witness: after the successful `envBal` call, a second call with
empty settings and a dead network still returns the cached portfolio with
the queried-chain flag false. -/
theorem c7_witness :
    fetchPortfolioValue ciOsmo (fun _ => none) [] wstateV2 envDead =
      .ok (portfolioV2, wstateV2, false) :=
  c7_portfolio_cache ciOsmo settingsEnv [] initWState envBal portfolioV2 wstateV2
    true (fun _ => none) [] envDead (by decide)

/-- C2 witness: the portfolio shape at the concrete `envBal` run. -/
theorem c2_witness :
    ∃ t : CosmosToken, portfolioV2.tokens = [t] ∧
      t.balance =
        ((([⟨"uosmo", 1230000⟩] : List Coin).find?
          (fun c => c.denom == ciOsmo.denom.getD "uosmo")).map Coin.amount).getD 0 ∧
      t.uiAmount.val = (t.balance : ℚ) / (10 : ℚ) ^ (ciOsmo.decimals.getD 6) ∧
      t.priceUsd =
        (fetchTokenPrice (jsOrStr ciOsmo.coingecko_id "osmosis") envBal.priceResp []).1 ∧
      portfolioV2.totalUsd.val = t.uiAmount.val * t.priceUsd.val ∧
      t.valueUsd = portfolioV2.totalUsd ∧ t.decimals = ciOsmo.decimals.getD 6 :=
  c2_portfolio_shape.1 ciOsmo settingsEnv [] envBal [⟨"uosmo", 1230000⟩]
    portfolioV2 wstateV2 true (by decide) (by decide)

/-- C6 witness: the concrete zero-price facts — the price fetch returns 0
from the empty cache, and the `envBal` portfolio renders price and total
as the string `0`. -/
theorem c6_witness :
    (fetchTokenPrice "osmosis" (.okv (some ⟨5, 1⟩)) [] = (Dec.zero, []) ∧
      Dec.zero.val = 0) ∧
    (portfolioV2.totalUsd.val = 0 ∧ portfolioV2.totalUsd.render = "0" ∧
      ∀ t ∈ portfolioV2.tokens, t.priceUsd.val = 0 ∧ t.priceUsd.render = "0" ∧
        t.valueUsd.val = 0 ∧ t.valueUsd.render = "0") :=
  ⟨c6_price_cache_invariant.2.2.1 "osmosis" (.okv (some ⟨5, 1⟩)) [] (fun g => rfl),
   c6_price_cache_invariant.2.2.2 ciOsmo settingsEnv [] initWState envBal
     portfolioV2 wstateV2 true initWState_inv (by decide)⟩
